import Mathlib

/-!
Shallow embedding of the diatherm repository (TalusBio/diatherm).

Source files modelled here:
* `src/diatherm/methods.py` — the `MethodFile` class: `_load_data`,
  `update_windows`, and the module-level `_make_row`.
* `src/diatherm/modifications.py` — `add_windows`, which builds the
  modification XML document.

Modelling conventions:
* Python `str` values are Lean `String`s; the method text is modelled at the
  granularity the code itself works at after `self.data.splitlines(True)`:
  an ordered `List String` of lines, each carrying its own terminator.  The
  full text is recovered with `String.join` (the code's `"".join(new_lines)`).
* Python `float` is modelled as `ℚ`; the fixed-point rendering used by the
  row formatter (`f"{mass:15.4f}"`) is implemented exactly on rationals
  (round half away from the floor, i.e. `floor (x * 10^4 + 1/2)`).  Python's
  own rounding acts on the binary double and agrees on all inputs whose
  scaled value is not an exact tie.
* Python exceptions become an explicit error type `Err`; a raised exception
  is an `Except.error`.
-/

set_option autoImplicit false
set_option maxRecDepth 4000

namespace Diatherm

/-- The exceptions the modelled code can raise.

* `notFound` — `list.index(x)` raised `ValueError` because `x` is absent.
* `capacity` — the `ValueError("The number of windows exceeds that in the
  template.")` raised at `methods.py:82` (the specification's taxonomy calls
  this condition `CapacityError`).
* `attributeError` — Python `AttributeError`; raised by
  `line.starts_with(...)` (the `str` type has no method named `starts_with`)
  and by `ET.SubElement(None, ...)` when `root.find(".//MassList")` found
  nothing.
* `indexError` — `[...][0]` applied to an empty list.
* `assertionError` — a failed `assert` statement. -/
inductive Err where
  | notFound
  | capacity
  | attributeError
  | indexError
  | assertionError
  deriving DecidableEq, Repr

/-- Python `s.rjust(w, c)`: left-pad `s` with `c` up to width `w`; strings
already at least `w` long are returned unchanged. -/
def rjust (s : String) (w : Nat) (c : Char) : String :=
  String.mk (List.replicate (w - s.length) c) ++ s

/-- Python `s.ljust(n)`: right-pad `s` with spaces up to width `n`; strings
already at least `n` long are returned unchanged. -/
def ljust (s : String) (n : Nat) : String :=
  s ++ String.mk (List.replicate (n - s.length) ' ')

/-- Fixed-point decimal rendering of a rational: the semantics of Python's
format specifier `.{prec}f` on exact decimal values.  The value is scaled by
`10 ^ prec`, rounded to the nearest integer (ties toward `+∞`), and printed
with a sign, an integer part, a dot, and exactly `prec` fraction digits. -/
def fmtFixed (prec : Nat) (q : ℚ) : String :=
  let scale : ℤ := (10 : ℤ) ^ prec
  let n : ℤ := Int.fdiv (2 * q.num * scale + (q.den : ℤ)) (2 * (q.den : ℤ))
  let sgn : String := if q.num < 0 then "-" else ""
  let a : Nat := n.natAbs
  let scaleN : Nat := 10 ^ prec
  sgn ++ toString (a / scaleN) ++ "." ++ rjust (toString (a % scaleN)) prec '0'

/-- Model of `_make_row(mass, charge)` in `methods.py`: one formatted row of the mass
list table,
`"|".join([prefix, f"{mass:15.4f}", f"{charge:15d}", "\r\n"])`. -/
def make_row (mass : ℚ) (charge : ℤ) : String :=
  let pre : String := "               |               |    (no adduct)"
  let massStr : String := rjust (fmtFixed 4 mass) 15 ' '
  let chargeStr : String := rjust (toString charge) 15 ' '
  pre ++ "|" ++ massStr ++ "|" ++ chargeStr ++ "|" ++ "\r\n"

/-- Key `MethodFile.isolation_window_key`. -/
def isolation_window_key : String := "\t\t\tIsolation Window (m/z) = "

/-- Key `MethodFile.n_windows_key`. -/
def n_windows_key : String := "\t\t\tN (Number of Spectra) = "

/-- The experiment marker line searched for at `methods.py:77`. -/
def experiment_key : String := "\tExperiment Name = tMS2\r\n"

/-- Key `MethodFile.mass_list_start_key`. -/
def mass_list_start_key : String := ">>>>>>>>>>>>> Mass List Table <<<<<<<<<<<<<<\r\n"

/-- Key `MethodFile.mass_list_end_key`. -/
def mass_list_end_key : String := ">>>>>>>>>>>>> End Mass List Table <<<<<<<<<<<<<<\r\n"

/-- Python `lines.index(key)`: index of the first occurrence, `ValueError`
(here `Err.notFound`) when absent. -/
def listIndex (lines : List String) (key : String) : Except Err Nat :=
  match lines.findIdx? (fun l => l == key) with
  | some i => .ok i
  | none => .error .notFound

/-- The charge normalisation shared verbatim by `methods.py:107-108` and
`modifications.py:28-29`: `if len(charge) == 1: charge = charge * n`.
Python list repetition `charge * n` is `n` concatenated copies. -/
def normCharge (charge : List ℤ) (n : Nat) : List ℤ :=
  if charge.length = 1 then (List.replicate n charge).flatten else charge

/-- One iteration of the parameter-rewrite loop at `methods.py:87-104`.  The
loop body's first statement evaluates `line.starts_with(self.isolation_window_key)`,
but Python's `str` type has no method `starts_with` (the method is named
`startswith`), so attribute lookup raises `AttributeError` on every
iteration, before any comparison or rewrite happens. -/
def paramStep (_line : String) : Except Err String :=
  .error .attributeError

/-- Model of `MethodFile.update_windows` (`methods.py:59-113`) up to and including the
construction of `new_lines`; the final re-encoding and padding of line 115 is
applied by `update_windows` below.  Scalar `mass`/`charge` arguments pass
through `utils.listify` first, so the model takes the already-listified
lists.  The slice `lines[ms2_idx:mass_start]` is `(lines.take mass_start).drop
ms2_idx`; the capacity comparison `len(mass) > mass_end - mass_start` is on
Python integers, hence over `ℤ`. -/
def update_core (lines : List String) (mass : List ℚ) (charge : List ℤ)
    (isolation_width : ℚ) : Except Err (List String) :=
  match listIndex lines experiment_key with
  | .error e => .error e
  | .ok ms2_idx =>
    match listIndex lines mass_list_start_key with
    | .error e => .error e
    | .ok startIdx =>
      match listIndex lines mass_list_end_key with
      | .error e => .error e
      | .ok mass_end =>
        let mass_start := startIdx + 1
        if (mass.length : ℤ) > (mass_end : ℤ) - (mass_start : ℤ) then
          .error .capacity
        else
          match ((lines.take mass_start).drop ms2_idx).mapM paramStep with
          | .error e => .error e
          | .ok params =>
            let charge' := normCharge charge mass.length
            let rows := (mass.zip charge').map fun p => make_row p.1 p.2
            -- isolation_width is only consumed inside the parameter loop,
            -- which never completes an iteration; keep the argument to
            -- mirror the signature.
            let _ := isolation_width
            .ok (lines.take ms2_idx ++ params ++ rows ++ lines.drop mass_end)

/-- Model of `MethodFile.update_windows`, final result: `new_data = "".join(new_lines)`
followed by `self.data = new_data.ljust(len(self.data))` (`methods.py:114-115`),
where the original `self.data` is the join of the input lines. -/
def update_windows (lines : List String) (mass : List ℚ) (charge : List ℤ)
    (isolation_width : ℚ) : Except Err String :=
  match update_core lines mass charge isolation_width with
  | .error e => .error e
  | .ok newLines => .ok (ljust (String.join newLines) (String.join lines).length)

/-- Model of `MethodFile._load_data` (`methods.py:39-57`).  `entries` models
`ole.listdir()` (the container's stream paths in directory order) and
`content` abstracts `ole.openstream(s).read().decode("utf16")`, the decoded
text of each stream.  The code filters for paths of exactly two components
whose second component is `"Text"`, takes element `[0]` of the filtered list
(`IndexError` when empty), asserts the first component is `"TNG-Merkur"`,
and only then reads the stream. -/
def load_data (entries : List (List String)) (content : List String → String) :
    Except Err (List String × String) :=
  match entries.filter (fun s => s.length == 2 && s.getD 1 "" == "Text") with
  | [] => .error .indexError
  | stream :: _ =>
    if stream.getD 0 "" == "TNG-Merkur" then
      .ok (stream, content stream)
    else
      .error .assertionError

/-! ## Basic lemmas about the string and list helpers -/

theorem rjust_length (s : String) (w : Nat) (c : Char) :
    (rjust s w c).length = max w s.length := by
  unfold rjust
  rw [String.length_append]
  show (List.replicate (w - s.length) c).length + s.length = _
  rw [List.length_replicate]
  omega

theorem ljust_length (s : String) (n : Nat) :
    (ljust s n).length = max n s.length := by
  unfold ljust
  rw [String.length_append]
  show s.length + (List.replicate (n - s.length) ' ').length = _
  rw [List.length_replicate]
  omega

theorem ljust_of_le (s : String) (n : Nat) (h : n ≤ s.length) :
    ljust s n = s := by
  unfold ljust
  have h0 : n - s.length = 0 := by omega
  rw [h0]
  show s ++ "" = s
  exact String.append_empty s

/-- The parameter-rewrite loop in one equation: it returns `ok []` on an
empty slice and `AttributeError` as soon as a single line is processed. -/
theorem mapM_paramStep (l : List String) :
    l.mapM paramStep =
      match l with
      | [] => .ok []
      | _ :: _ => .error .attributeError := by
  cases l <;> rfl

/-- Python `[z] * n == [z, ..., z]` (`n` copies). -/
theorem flatten_replicate_singleton (n : Nat) (z : ℤ) :
    (List.replicate n [z]).flatten = List.replicate n z := by
  induction n with
  | zero => rfl
  | succ m ih => simp [List.replicate_succ, ih]

/-- Characterisation of `update_core` once the three marker lookups are
known: the capacity test, then the parameter loop (which only survives an
empty slice), then the concatenation. -/
theorem update_core_eq (lines : List String) (mass : List ℚ) (charge : List ℤ)
    (w : ℚ) (i s e : Nat)
    (hi : listIndex lines experiment_key = .ok i)
    (hs : listIndex lines mass_list_start_key = .ok s)
    (he : listIndex lines mass_list_end_key = .ok e) :
    update_core lines mass charge w =
      if (mass.length : ℤ) > (e : ℤ) - ((s + 1 : Nat) : ℤ) then
        .error .capacity
      else
        match (lines.take (s + 1)).drop i with
        | [] =>
          .ok (lines.take i ++
            ((mass.zip (normCharge charge mass.length)).map fun p => make_row p.1 p.2) ++
            lines.drop e)
        | _ :: _ => .error .attributeError := by
  simp only [update_core, hi, hs, he]
  by_cases hc : (mass.length : ℤ) > (e : ℤ) - ((s + 1 : Nat) : ℤ)
  · rw [if_pos hc, if_pos hc]
  · rw [if_neg hc, if_neg hc]
    rw [mapM_paramStep]
    cases (lines.take (s + 1)).drop i <;> simp

/-- Broadcasting a single charge is the same as passing it explicitly for
every window: both normalise to `n` copies of `z`. -/
theorem normCharge_broadcast (z : ℤ) (n : Nat) :
    normCharge [z] n = normCharge (List.replicate n z) n := by
  unfold normCharge
  rw [List.length_replicate]
  by_cases hn : n = 1
  · subst hn
    simp
  · have h1 : (([z] : List ℤ).length = 1) := rfl
    rw [if_pos h1, if_neg hn, flatten_replicate_singleton]

/-! ## Concrete template fixtures used by counterexamples and witnesses

`linesA` is a template whose experiment marker sits between the two table
markers, the only configuration in which `update_windows` can run to
completion (any line strictly between the experiment marker and the table
start marker makes the loop at `methods.py:87` raise `AttributeError`, see
`paramStep`). -/

/-- A minimal template on which `update_windows` returns: the single table
slot (the experiment marker line itself) is shorter than a generated row, so
the re-encoded text grows beyond the original length. -/
def linesA : List String := [mass_list_start_key, experiment_key, mass_list_end_key]

/-- The text produced by `update_windows` on `linesA`. -/
def c1out : String := String.join [mass_list_start_key, make_row 500 2, mass_list_end_key]

/-- A conventional template layout (experiment marker, two parameter lines,
then the table) with one row slot. -/
def linesB : List String :=
  [experiment_key,
   isolation_window_key ++ "2\r\n",
   n_windows_key ++ "1\r\n",
   mass_list_start_key,
   "slot\r\n",
   mass_list_end_key]

/-- A template containing the experiment marker twice. -/
def linesC : List String :=
  [mass_list_start_key, experiment_key, experiment_key, mass_list_end_key]

/-- A template with one extra line between the table start marker and the
experiment marker. -/
def linesE : List String :=
  [mass_list_start_key, "x\r\n", experiment_key, mass_list_end_key]

/-! ## Claim theorems: the window table editor -/

/-- C1 counterexample: on `linesA` with one window, `update_windows` returns
a text that is strictly longer than the original stream text — no
`CapacityError` is raised and the padding law fails.  (`str.ljust` pads a
short string but leaves a long one unchanged; `methods.py:115` never checks
for overflow.) -/
theorem c1_counterexample :
    update_windows linesA [500] [2] 4 = .ok c1out ∧
      c1out.length ≠ (String.join linesA).length := by
  constructor
  · rfl
  · decide

/-- C1 (amended): whenever `update_windows` returns, the output text is the
re-encoded text left-justified to the original length: its length is the
maximum of the original length and the re-encoded length.  Shorter text is
padded with trailing spaces to exactly the original length, but text that
exceeds the original length is returned unchanged — longer than the
original, with no error and no truncation. -/
theorem c1_amended (lines : List String) (mass : List ℚ) (charge : List ℤ)
    (w : ℚ) (nl : List String)
    (h : update_core lines mass charge w = .ok nl) :
    update_windows lines mass charge w =
      .ok (ljust (String.join nl) (String.join lines).length) ∧
    (ljust (String.join nl) (String.join lines).length).length =
      max (String.join lines).length (String.join nl).length ∧
    ((String.join lines).length ≤ (String.join nl).length →
      ljust (String.join nl) (String.join lines).length = String.join nl) := by
  refine ⟨?_, ljust_length _ _, ljust_of_le _ _⟩
  unfold update_windows
  rw [h]

/-- Witness for `c1_amended` at a concrete input on which `update_windows`
returns. -/
theorem c1_amended_witness :
    update_windows linesA [500] [2] 4 =
      .ok (ljust (String.join [mass_list_start_key, make_row 500 2, mass_list_end_key])
        (String.join linesA).length) ∧
    (ljust (String.join [mass_list_start_key, make_row 500 2, mass_list_end_key])
        (String.join linesA).length).length =
      max (String.join linesA).length
        (String.join [mass_list_start_key, make_row 500 2, mass_list_end_key]).length ∧
    ((String.join linesA).length ≤
        (String.join [mass_list_start_key, make_row 500 2, mass_list_end_key]).length →
      ljust (String.join [mass_list_start_key, make_row 500 2, mass_list_end_key])
          (String.join linesA).length =
        String.join [mass_list_start_key, make_row 500 2, mass_list_end_key]) :=
  c1_amended linesA [500] [2] 4 [mass_list_start_key, make_row 500 2, mass_list_end_key] rfl

/-- C2: with all three markers present (first occurrences at `i`, `s`, `e`)
and a well-formed table region, a window count equal to the capacity
`e - (s + 1)` never raises the capacity error, while a window count of
capacity + 1 — or any larger count — fails with the capacity error; the
function returns that error directly, so no line is modified. -/
theorem c2_capacity_boundary (lines : List String) (mass : List ℚ)
    (charge : List ℤ) (w : ℚ) (i s e : Nat)
    (hi : listIndex lines experiment_key = .ok i)
    (hs : listIndex lines mass_list_start_key = .ok s)
    (he : listIndex lines mass_list_end_key = .ok e)
    (hcap : s + 1 ≤ e) :
    (mass.length = e - (s + 1) →
      update_windows lines mass charge w ≠ .error .capacity) ∧
    (mass.length ≥ e - (s + 1) + 1 →
      update_windows lines mass charge w = .error .capacity) := by
  constructor
  · intro hlen
    have hc : ¬ ((mass.length : ℤ) > (e : ℤ) - ((s + 1 : Nat) : ℤ)) := by
      omega
    have hcore := update_core_eq lines mass charge w i s e hi hs he
    rw [if_neg hc] at hcore
    unfold update_windows
    rw [hcore]
    cases (lines.take (s + 1)).drop i <;> simp
  · intro hlen
    have hc : (mass.length : ℤ) > (e : ℤ) - ((s + 1 : Nat) : ℤ) := by
      omega
    have hcore := update_core_eq lines mass charge w i s e hi hs he
    rw [if_pos hc] at hcore
    unfold update_windows
    rw [hcore]

/-- Witness for `c2_capacity_boundary` on the one-slot template `linesB`:
one window is within capacity, two windows hit the capacity + 1 boundary,
and three windows exercise a strictly larger count. -/
theorem c2_witness :
    (update_windows linesB [500] [2] 4 ≠ .error .capacity) ∧
    (update_windows linesB [500, 501] [2] 4 = .error .capacity) ∧
    (update_windows linesB [500, 501, 502] [2] 4 = .error .capacity) :=
  ⟨(c2_capacity_boundary linesB [500] [2] 4 0 3 5 rfl rfl rfl (by decide)).1 (by decide),
   (c2_capacity_boundary linesB [500, 501] [2] 4 0 3 5 rfl rfl rfl (by decide)).2 (by decide),
   (c2_capacity_boundary linesB [500, 501, 502] [2] 4 0 3 5 rfl rfl rfl (by decide)).2 (by decide)⟩

/-- C3: the code never raises an ambiguity error.  `linesC` contains the
experiment marker twice, yet `update_windows` silently uses the first match
(`list.index` at `methods.py:77`) and even runs to completion here, replacing
the table with the generated row. -/
theorem c3_first_match_no_ambiguity :
    (linesC.filter fun l => l == experiment_key).length = 2 ∧
    update_core linesC [500] [2] 4 =
      .ok [mass_list_start_key, make_row 500 2, mass_list_end_key] := by
  exact ⟨by decide, rfl⟩

/-- C5: on a conventional template (experiment marker followed by the
isolation-width and window-count parameter lines and then the table),
`update_windows` raises `AttributeError` instead of rewriting anything: the
loop at `methods.py:87-104` calls the nonexistent method
`str.starts_with`. -/
theorem c5_attribute_error :
    update_windows linesB [500] [3] 4 = .error .attributeError := rfl

/-- C6 counterexample: a successful call on `linesE` (one window, capacity
two).  In the output, the region strictly between the table markers is
`["x\r\n", make_row 500 2]`, not exactly the list of generated rows: the
line between the table start marker and the experiment marker survives. -/
theorem c6_counterexample :
    update_core linesE [500] [2] 4 =
      .ok [mass_list_start_key, "x\r\n", make_row 500 2, mass_list_end_key] ∧
    (([mass_list_start_key, "x\r\n", make_row 500 2, mass_list_end_key].take 3).drop 1) ≠
      [make_row 500 2] := by
  constructor
  · rfl
  · intro hcontra
    have : ("x\r\n" : String) = make_row 500 2 := by
      have := congrArg (fun l => l.getD 0 "") hcontra
      simpa using this
    exact absurd (congrArg String.length this) (by decide)

/-- C6 (amended): a call of `update_windows` can only succeed when the first
experiment marker lies at or after the table start marker (otherwise the
parameter loop raises `AttributeError`).  In that case the new line list is
`lines[:i] ++ generated rows ++ lines[e:]`: everything before the experiment
marker — including the table start marker and any table lines preceding the
experiment marker — and everything from the end marker on is unchanged, and
the rows are one per zipped (center, charge) pair in input order, i.e.
`min len(centers) len(normalised charges)` rows, with no sorting or
deduplication. -/
theorem c6_amended (lines : List String) (mass : List ℚ) (charge : List ℤ)
    (w : ℚ) (i s e : Nat)
    (hi : listIndex lines experiment_key = .ok i)
    (hs : listIndex lines mass_list_start_key = .ok s)
    (he : listIndex lines mass_list_end_key = .ok e)
    (hreg : s + 1 ≤ i)
    (hcap : (mass.length : ℤ) ≤ (e : ℤ) - ((s : ℤ) + 1)) :
    update_core lines mass charge w =
      .ok (lines.take i ++
        ((mass.zip (normCharge charge mass.length)).map fun p => make_row p.1 p.2) ++
        lines.drop e) ∧
    ((mass.zip (normCharge charge mass.length)).map fun p => make_row p.1 p.2).length =
      min mass.length (normCharge charge mass.length).length := by
  constructor
  · have hc : ¬ ((mass.length : ℤ) > (e : ℤ) - ((s + 1 : Nat) : ℤ)) := by
      push_cast
      omega
    have hcore := update_core_eq lines mass charge w i s e hi hs he
    rw [if_neg hc] at hcore
    have hnil : (lines.take (s + 1)).drop i = [] := by
      apply List.drop_eq_nil_of_le
      calc (lines.take (s + 1)).length ≤ s + 1 := by
            rw [List.length_take]; omega
        _ ≤ i := hreg
    rw [hnil] at hcore
    exact hcore
  · rw [List.length_map, List.length_zip]

/-- Witness for `c6_amended` on the template `linesE`. -/
theorem c6_amended_witness :
    update_core linesE [500] [2] 4 =
      .ok (linesE.take 2 ++
        ((([(500 : ℚ)].zip (normCharge [2] 1)).map fun p => make_row p.1 p.2)) ++
        linesE.drop 3) ∧
    ((([(500 : ℚ)].zip (normCharge [2] 1)).map fun p => make_row p.1 p.2)).length =
      min ([(500 : ℚ)].length) ((normCharge [2] 1).length) :=
  c6_amended linesE [500] [2] 4 2 0 3 rfl rfl rfl (by decide) (by decide)

/-- C7: the charge broadcast law.  Passing the one-element charge list `[z]`
gives exactly the same result as passing `len(centers)` explicit copies of
`z` — the whole output agrees, in particular the generated table rows. -/
theorem c7_broadcast (lines : List String) (mass : List ℚ) (z : ℤ) (w : ℚ) :
    update_windows lines mass [z] w =
      update_windows lines mass (List.replicate mass.length z) w := by
  unfold update_windows update_core
  simp only [normCharge_broadcast]

/-- C9: each generated row is the constant placeholder columns, the center
right-justified in a 15-character field with 4 decimal places, the charge
right-justified in a 15-character field, and the terminator, joined with
pipes; whenever the two formatted numbers fit their fields the whole row has
the fixed length 82. -/
theorem c9_row_format (m : ℚ) (z : ℤ)
    (hm : (fmtFixed 4 m).length ≤ 15) (hz : (toString z).length ≤ 15) :
    make_row m z =
      "               |               |    (no adduct)" ++ "|" ++
        rjust (fmtFixed 4 m) 15 ' ' ++ "|" ++ rjust (toString z) 15 ' ' ++ "|" ++ "\r\n" ∧
    (make_row m z).length = 82 := by
  refine ⟨rfl, ?_⟩
  have h47 : ("               |               |    (no adduct)" : String).length = 47 := by
    decide
  have h1 : ("|" : String).length = 1 := by decide
  have h2 : ("\r\n" : String).length = 2 := by decide
  unfold make_row
  simp only [String.length_append, rjust_length, h47, h1, h2]
  omega

/-- Witness for `c9_row_format` at center 500 and charge 2. -/
theorem c9_witness :
    make_row 500 2 =
      "               |               |    (no adduct)" ++ "|" ++
        rjust (fmtFixed 4 500) 15 ' ' ++ "|" ++ rjust (toString (2 : ℤ)) 15 ' ' ++ "|" ++ "\r\n" ∧
    (make_row 500 2).length = 82 :=
  c9_row_format 500 2 (by decide) (by decide)

/-! ## modifications.py: the XML document generator

The `xml.etree.ElementTree` trees built by `add_windows` are modelled by the
mutual inductive `Elem`/`ElemList` (children as a dedicated list type keeps
every function below structurally recursive).  `root.find(".//MassList")`
returns the first element with the given tag among the root's descendants in
document order; `ET.SubElement` appends a child.  Python `str` applied to
the float centers is abstracted as the parameter `strM`; `str` on the
integer charges is `toString` on `ℤ`, which agrees with Python exactly. -/

mutual
/-- One XML element: tag, optional text (Python `None` until assigned), and
children. -/
inductive Elem where
  | node (tag : String) (text : Option String) (children : ElemList)

/-- A list of elements. -/
inductive ElemList where
  | nil
  | cons (e : Elem) (es : ElemList)
end

/-- Concatenation of children lists. -/
def ElemList.append : ElemList → ElemList → ElemList
  | .nil, ys => ys
  | .cons x xs, ys => .cons x (xs.append ys)

/-- Conversion from an ordinary list of elements. -/
def elemListOf : List Elem → ElemList
  | [] => .nil
  | e :: es => .cons e (elemListOf es)

mutual
/-- Search one element: the element itself if its tag matches, otherwise its
descendants in document order. -/
def findInElem (tag : String) (e : Elem) : Option Elem :=
  match e with
  | .node t _ cs => if t = tag then some e else findInForest tag cs

/-- Search a forest of elements in document order. -/
def findInForest (tag : String) : ElemList → Option Elem
  | .nil => none
  | .cons e es =>
    match findInElem tag e with
    | some r => some r
    | none => findInForest tag es
end

/-- Model of `root.find(".//" + tag)`: the first descendant of `root` (the root
itself excluded) with the given tag, in document order. -/
def findDesc (tag : String) (root : Elem) : Option Elem :=
  match root with
  | .node _ _ cs => findInForest tag cs

mutual
/-- Append `ks` to the children of the first element with tag `tag` in the
subtree rooted at `e` (document order, `e` itself included); `none` when no
such element exists. -/
def appendInElem (tag : String) (ks : ElemList) (e : Elem) : Option Elem :=
  match e with
  | .node t x cs =>
    if t = tag then some (.node t x (cs.append ks))
    else
      match appendInForest tag ks cs with
      | some cs' => some (.node t x cs')
      | none => none

/-- Append `ks` to the children of the first element with tag `tag` in a
forest; `none` when no such element exists. -/
def appendInForest (tag : String) (ks : ElemList) : ElemList → Option ElemList
  | .nil => none
  | .cons e es =>
    match appendInElem tag ks e with
    | some e' => some (.cons e' es)
    | none =>
      match appendInForest tag ks es with
      | some es' => some (.cons e es')
      | none => none
end

/-- One record element as built by the loop body of `add_windows`
(`modifications.py:36-47`): a `MassListRecord` with a `CompoundName` of
`"DIA {idx+1}"`, an empty `Formula`, the center rendered by `strM` (Python
`str(mz_val)`), and the charge rendered by `toString` (Python
`str(charge_val)`). -/
def diaRecord (strM : ℚ → String) (label : Nat) (mz : ℚ) (z : ℤ) : Elem :=
  .node "MassListRecord" none (elemListOf
    [.node "CompoundName" (some ("DIA " ++ toString label)) .nil,
     .node "Formula" (some "") .nil,
     .node "MOverZ" (some (strM mz)) .nil,
     .node "Z" (some (toString z)) .nil])

/-- The record elements produced by
`for idx, (mz_val, charge_val) in enumerate(zip(m_over_z, charge))`, the
running index starting at `idx`. -/
def diaRecords (strM : ℚ → String) : Nat → List (ℚ × ℤ) → List Elem
  | _, [] => []
  | idx, (mz, z) :: rest => diaRecord strM (idx + 1) mz z :: diaRecords strM (idx + 1) rest

/-- Model of `modifications.add_windows(m_over_z, charge)` (`modifications.py:10-48`),
with the parsed template tree passed explicitly (the code parses the fixed
on-disk `data/template.xml`, which is not part of the sources; the spec
directs that the template be modelled as an explicitly passed value).
Scalar arguments pass through `utils.listify` first, so the model takes the
listified lists.  When `root.find(".//MassList")` finds nothing the loop's
first `ET.SubElement(None, ...)` call raises `AttributeError` — unless the
zipped pair list is empty, in which case the loop never runs and the
template is returned unmodified. -/
def add_windows (strM : ℚ → String) (tmpl : Elem) (m_over_z : List ℚ)
    (charge : List ℤ) : Except Err Elem :=
  let ch := normCharge charge m_over_z.length
  let pairs := m_over_z.zip ch
  match tmpl with
  | .node t x cs =>
    match appendInForest "MassList" (elemListOf (diaRecords strM 0 pairs)) cs with
    | some cs' => .ok (.node t x cs')
    | none => if pairs.isEmpty then .ok (.node t x cs) else .error .attributeError

/-- The element `ml` with `ks` appended to its children — what mutating the
element returned by `find` does to the tree. -/
def extendChildren (ml : Elem) (ks : ElemList) : Elem :=
  match ml with
  | .node t x cs => .node t x (cs.append ks)

mutual
/-- When the search finds nothing in an element, the append also fails. -/
theorem appendInElem_of_find_none (tag : String) (ks : ElemList) (e : Elem)
    (h : findInElem tag e = none) : appendInElem tag ks e = none := by
  match e with
  | .node t x cs =>
    unfold findInElem at h
    unfold appendInElem
    by_cases ht : t = tag
    · rw [if_pos ht] at h
      exact absurd h (by simp)
    · rw [if_neg ht] at h
      rw [if_neg ht, appendInForest_of_find_none tag ks cs h]

/-- When the search finds nothing in a forest, the append also fails. -/
theorem appendInForest_of_find_none (tag : String) (ks : ElemList) (es : ElemList)
    (h : findInForest tag es = none) : appendInForest tag ks es = none := by
  match es with
  | .nil => rfl
  | .cons e rest =>
    unfold findInForest at h
    unfold appendInForest
    cases hfe : findInElem tag e with
    | some r => rw [hfe] at h; exact absurd h (by simp)
    | none =>
      rw [hfe] at h
      rw [appendInElem_of_find_none tag ks e hfe,
        appendInForest_of_find_none tag ks rest h]
end

mutual
/-- When the search finds `ml` in an element, appending `ks` succeeds and the
search in the rewritten element returns `ml` with `ks` appended to its
children. -/
theorem appendInElem_of_find (tag : String) (ks : ElemList) (e : Elem) (ml : Elem)
    (h : findInElem tag e = some ml) :
    ∃ e', appendInElem tag ks e = some e' ∧
      findInElem tag e' = some (extendChildren ml ks) := by
  match e with
  | .node t x cs =>
    unfold findInElem at h
    by_cases ht : t = tag
    · rw [if_pos ht] at h
      have hml : ml = .node t x cs := by
        cases h
        rfl
      refine ⟨.node t x (cs.append ks), ?_, ?_⟩
      · unfold appendInElem
        rw [if_pos ht]
      · unfold findInElem
        rw [if_pos ht, hml]
        rfl
    · rw [if_neg ht] at h
      obtain ⟨cs', h1, h2⟩ := appendInForest_of_find tag ks cs ml h
      refine ⟨.node t x cs', ?_, ?_⟩
      · unfold appendInElem
        rw [if_neg ht, h1]
      · unfold findInElem
        rw [if_neg ht, h2]

/-- When the search finds `ml` in a forest, appending `ks` succeeds and the
search in the rewritten forest returns `ml` with `ks` appended to its
children. -/
theorem appendInForest_of_find (tag : String) (ks : ElemList) (es : ElemList) (ml : Elem)
    (h : findInForest tag es = some ml) :
    ∃ es', appendInForest tag ks es = some es' ∧
      findInForest tag es' = some (extendChildren ml ks) := by
  match es with
  | .nil => exact absurd h (by simp [findInForest])
  | .cons e rest =>
    unfold findInForest at h
    cases hfe : findInElem tag e with
    | some r =>
      rw [hfe] at h
      have hr : r = ml := by
        cases h
        rfl
      subst hr
      obtain ⟨e', h1, h2⟩ := appendInElem_of_find tag ks e r hfe
      refine ⟨.cons e' rest, ?_, ?_⟩
      · unfold appendInForest
        rw [h1]
      · unfold findInForest
        rw [h2]
    | none =>
      rw [hfe] at h
      obtain ⟨rest', h1, h2⟩ := appendInForest_of_find tag ks rest ml h
      refine ⟨.cons e rest', ?_, ?_⟩
      · unfold appendInForest
        rw [appendInElem_of_find_none tag ks e hfe, h1]
      · unfold findInForest
        rw [hfe, h2]
end

/-- Elements of a replicated list. -/
theorem getD_replicate {α : Type} (d c : α) (n j : Nat) (h : j < n) :
    (List.replicate n c).getD j d = c := by
  induction n generalizing j with
  | zero => omega
  | succ m ih =>
    cases j with
    | zero => rfl
    | succ j' =>
      rw [List.replicate_succ, List.getD_cons_succ]
      exact ih j' (by omega)

/-- Indexing a zip is indexing both components. -/
theorem zip_getD {α β : Type} (d1 : α) (d2 : β) (l1 : List α) (l2 : List β)
    (j : Nat) (h1 : j < l1.length) (h2 : j < l2.length) :
    (l1.zip l2).getD j (d1, d2) = (l1.getD j d1, l2.getD j d2) := by
  induction l1 generalizing l2 j with
  | nil => simp at h1
  | cons a as ih =>
    cases l2 with
    | nil => simp at h2
    | cons b bs =>
      cases j with
      | zero => rfl
      | succ j' =>
        rw [List.zip_cons_cons, List.getD_cons_succ, List.getD_cons_succ,
          List.getD_cons_succ]
        exact ih bs j' (by simpa using h1) (by simpa using h2)

/-- When the charge list is a single scalar or matches the window count, the
normalised charge list has exactly one entry per window. -/
theorem normCharge_length (charges : List ℤ) (n : Nat)
    (hch : charges.length = 1 ∨ charges.length = n) :
    (normCharge charges n).length = n := by
  unfold normCharge
  by_cases h1 : charges.length = 1
  · rw [if_pos h1]
    rw [List.length_flatten, List.map_replicate, h1, List.sum_replicate]
    simp
  · rw [if_neg h1]
    rcases hch with hch | hch
    · exact absurd hch h1
    · exact hch

/-- The normalised charge at index `j`: the scalar when broadcasting, the
`j`-th entry otherwise. -/
theorem normCharge_getD (charges : List ℤ) (n j : Nat) (hj : j < n) :
    (normCharge charges n).getD j 0 =
      if charges.length = 1 then charges.getD 0 0 else charges.getD j 0 := by
  unfold normCharge
  by_cases h1 : charges.length = 1
  · rw [if_pos h1, if_pos h1]
    obtain ⟨c, rfl⟩ := List.length_eq_one.mp h1
    rw [flatten_replicate_singleton, getD_replicate _ _ _ _ hj]
    rfl
  · rw [if_neg h1, if_neg h1]

/-- The records built by the `enumerate` loop, characterised by index: the
`j`-th record (0-based) carries the running label `k + j + 1` and the `j`-th
zipped pair. -/
theorem diaRecords_eq (strM : ℚ → String) (k : Nat) (pairs : List (ℚ × ℤ)) :
    diaRecords strM k pairs =
      (List.range pairs.length).map
        (fun j => diaRecord strM (k + j + 1) (pairs.getD j (0, 0)).1
          (pairs.getD j (0, 0)).2) := by
  induction pairs generalizing k with
  | nil => rfl
  | cons p rest ih =>
    obtain ⟨mz, z⟩ := p
    rw [diaRecords, ih (k + 1), List.length_cons, List.range_succ_eq_map,
      List.map_cons, List.map_map]
    congr 1
    apply List.map_congr_left
    intro j _
    show diaRecord strM (k + 1 + j + 1) (rest.getD j (0, 0)).1 (rest.getD j (0, 0)).2 = _
    have harith : k + 1 + j + 1 = k + (j + 1) + 1 := by omega
    simp only [Function.comp, List.getD_cons_succ, harith]

/-! ## Fixtures and claim theorems: the document generator and loading -/

/-- A concrete stand-in for Python `str` on floats that are whole numbers
(`str(10.0) == "10.0"`), used to instantiate witnesses. -/
def floatStr1 (q : ℚ) : String := toString q.num ++ ".0"

/-- A minimal template tree with one empty `MassList` element. -/
def tmpl4 : Elem := .node "Method" none (elemListOf [.node "MassList" none .nil])

/-- C4 counterexample: `build_document([10.0, 20.0], [1, 2, 3])` does not
fail with a validation error — no such check exists.  `zip` silently drops
the third charge and the call returns a document with exactly two records. -/
theorem c4_counterexample :
    add_windows floatStr1 tmpl4 [10, 20] [1, 2, 3] =
      .ok (.node "Method" none (elemListOf
        [.node "MassList" none (elemListOf
          [diaRecord floatStr1 1 10 1, diaRecord floatStr1 2 20 2])])) := rfl

/-- C4 (amended): when the charge list is not a single scalar, no length
validation happens.  The charge list is used as given (no broadcast), the
document call succeeds whenever the template has a `MassList` element, and
both code paths pair centers with charges positionally, producing
`min len(centers) len(charges)` pairs — excess entries on either side are
silently dropped (`zip` at `methods.py:110` and `modifications.py:35`). -/
theorem c4_amended (strM : ℚ → String) (tmpl : Elem) (ml : Elem)
    (hml : findDesc "MassList" tmpl = some ml)
    (centers : List ℚ) (charges : List ℤ) (h1 : charges.length ≠ 1) :
    (add_windows strM tmpl centers charges).isOk = true ∧
    normCharge charges centers.length = charges ∧
    (centers.zip (normCharge charges centers.length)).length =
      min centers.length charges.length := by
  have hnorm : normCharge charges centers.length = charges := by
    unfold normCharge
    rw [if_neg h1]
  refine ⟨?_, hnorm, ?_⟩
  · cases tmpl with
    | node t x cs =>
      unfold findDesc at hml
      obtain ⟨cs', hap, _⟩ := appendInForest_of_find "MassList"
        (elemListOf (diaRecords strM 0
          (centers.zip (normCharge charges centers.length)))) cs ml hml
      unfold add_windows
      dsimp only
      rw [hap]
      rfl
  · rw [hnorm, List.length_zip]

/-- Witness for `c4_amended` at the inputs of the claim's example. -/
theorem c4_witness :
    (add_windows floatStr1 tmpl4 [10, 20] [1, 2, 3]).isOk = true ∧
    normCharge [1, 2, 3] ([(10 : ℚ), 20].length) = [1, 2, 3] ∧
    (([(10 : ℚ), 20]).zip (normCharge [1, 2, 3] ([(10 : ℚ), 20].length))).length =
      min ([(10 : ℚ), 20].length) ([(1 : ℤ), 2, 3].length) :=
  c4_amended floatStr1 tmpl4 (.node "MassList" none .nil) rfl [10, 20] [1, 2, 3]
    (by decide)

/-- C8: with a `MassList` element present and charges either scalar or
matching the center count, `add_windows` succeeds and the list element of
the result carries its old children followed by exactly one record per
window, in input order: the `j`-th (0-based) appended record is a
`MassListRecord` labelled `"DIA {j+1}"`, with an empty formula, the
rendering of `centers[j]`, and the rendering of the (broadcast) charge. -/
theorem c8_records (strM : ℚ → String) (tmpl : Elem) (centers : List ℚ)
    (charges : List ℤ)
    (hch : charges.length = 1 ∨ charges.length = centers.length)
    (ml : Elem) (hml : findDesc "MassList" tmpl = some ml) :
    (add_windows strM tmpl centers charges).map (findDesc "MassList") =
      .ok (some (extendChildren ml (elemListOf
        ((List.range centers.length).map fun j =>
          Elem.node "MassListRecord" none (elemListOf
            [Elem.node "CompoundName" (some ("DIA " ++ toString (j + 1))) .nil,
             Elem.node "Formula" (some "") .nil,
             Elem.node "MOverZ" (some (strM (centers.getD j 0))) .nil,
             Elem.node "Z" (some (toString (if charges.length = 1 then charges.getD 0 0
               else charges.getD j 0))) .nil]))))) := by
  have hlen : (normCharge charges centers.length).length = centers.length :=
    normCharge_length charges centers.length hch
  have hpairs : (centers.zip (normCharge charges centers.length)).length =
      centers.length := by
    rw [List.length_zip, hlen]
    omega
  have hrecs : diaRecords strM 0 (centers.zip (normCharge charges centers.length)) =
      (List.range centers.length).map fun j =>
        Elem.node "MassListRecord" none (elemListOf
          [Elem.node "CompoundName" (some ("DIA " ++ toString (j + 1))) .nil,
           Elem.node "Formula" (some "") .nil,
           Elem.node "MOverZ" (some (strM (centers.getD j 0))) .nil,
           Elem.node "Z" (some (toString (if charges.length = 1 then charges.getD 0 0
             else charges.getD j 0))) .nil]) := by
    rw [diaRecords_eq, hpairs]
    apply List.map_congr_left
    intro j hj
    have hjlt : j < centers.length := List.mem_range.mp hj
    have hzip : (centers.zip (normCharge charges centers.length)).getD j (0, 0) =
        (centers.getD j 0, (normCharge charges centers.length).getD j 0) :=
      zip_getD 0 0 centers (normCharge charges centers.length) j hjlt (by omega)
    rw [hzip, normCharge_getD charges centers.length j hjlt]
    unfold diaRecord
    simp only [Nat.zero_add]
  cases tmpl with
  | node t x cs =>
    unfold findDesc at hml
    obtain ⟨cs', hap, hfind⟩ := appendInForest_of_find "MassList"
      (elemListOf (diaRecords strM 0
        (centers.zip (normCharge charges centers.length)))) cs ml hml
    unfold add_windows
    dsimp only
    rw [hap]
    show Except.ok (findInForest "MassList" cs') = _
    rw [hfind, hrecs]

/-- Witness for `c8_records` on the claim's example:
`build_document([10.0, 20.0, 30.0], 2)`. -/
theorem c8_witness :
    (add_windows floatStr1 tmpl4 [10, 20, 30] [2]).map (findDesc "MassList") =
      .ok (some (extendChildren (.node "MassList" none .nil) (elemListOf
        ((List.range ([(10 : ℚ), 20, 30].length)).map fun j =>
          Elem.node "MassListRecord" none (elemListOf
            [Elem.node "CompoundName" (some ("DIA " ++ toString (j + 1))) .nil,
             Elem.node "Formula" (some "") .nil,
             Elem.node "MOverZ" (some (floatStr1 ([(10 : ℚ), 20, 30].getD j 0))) .nil,
             Elem.node "Z" (some (toString (if ([(2 : ℤ)]).length = 1
               then ([(2 : ℤ)]).getD 0 0 else ([(2 : ℤ)]).getD j 0))) .nil]))))) :=
  c8_records floatStr1 tmpl4 [10, 20, 30] [2] (Or.inl rfl)
    (.node "MassList" none .nil) rfl

/-- C10: stream selection in `_load_data`.  Whenever the filtered list of
two-component `Text` stream paths starts with `stream`, the result is
decided by that first entry alone: a `TNG-Merkur` section loads it, any
other section fails the assertion — even if a later candidate has section
`TNG-Merkur`. -/
theorem c10_first_text_stream (entries : List (List String))
    (content : List String → String) (stream : List String)
    (rest : List (List String))
    (hf : entries.filter (fun s => s.length == 2 && s.getD 1 "" == "Text") =
      stream :: rest) :
    (stream.getD 0 "" = "TNG-Merkur" →
      load_data entries content = .ok (stream, content stream)) ∧
    (stream.getD 0 "" ≠ "TNG-Merkur" →
      load_data entries content = .error .assertionError) := by
  unfold load_data
  rw [hf]
  dsimp only
  constructor
  · intro h
    rw [if_pos (beq_iff_eq.mpr h)]
  · intro h
    rw [if_neg (fun hb => h (beq_iff_eq.mp hb))]

/-- Witness for `c10_first_text_stream`: the first two-component `Text`
stream has section `"Foo"`, so loading fails by assertion although a later
`TNG-Merkur` `Text` stream exists in the container. -/
theorem c10_witness :
    load_data [["Data"], ["Foo", "Text"], ["TNG-Merkur", "Text"]] (fun _ => "") =
      .error .assertionError :=
  (c10_first_text_stream [["Data"], ["Foo", "Text"], ["TNG-Merkur", "Text"]]
    (fun _ => "") ["Foo", "Text"] [["TNG-Merkur", "Text"]] rfl).2 (by decide)

end Diatherm
